import Mathlib

/-!
# Verification of the Resumify resume-builder core (src/app.py, src/forms.py)

Shallow embedding of the core logic of the Resumify web application:
the input sanitizer, the bracketed nested-form decoder, the token/plan
gate, and the resume record lifecycle (generate, edit, delete, token
purchase, plan upgrade).

Python strings are modelled as Lean `String` / `List Char`; the handful
of Python string primitives used by the code (`strip`, `split`,
`startswith`, `endswith`, `join`) are given direct executable models
below.  The database session is modelled as an explicit `AppState`
record threaded through each handler.  The `User` model class and the
`FREE_TEMPLATES` constant live in files (`models.py`, `config.py`) that
are not part of the provided sources; those pieces are modelled from the
specification and marked as such in their doc comments.
-/

namespace Resumify

/-! ## Python string primitives -/

/-- Python `str.strip()` on a character list: drop whitespace from both ends. -/
def strip_list (l : List Char) : List Char :=
  ((l.dropWhile Char.isWhitespace).reverse.dropWhile Char.isWhitespace).reverse

/-- Python `str.strip()` on a string. -/
def py_strip (s : String) : String := (strip_list s.toList).asString

/-- Python `str.split(sep)` for a single-character separator `sep`
(keeps empty pieces, as Python does). -/
def py_split_char (sep : Char) : List Char → List (List Char)
  | [] => [[]]
  | c :: rest =>
    if c = sep then [] :: py_split_char sep rest
    else
      match py_split_char sep rest with
      | [] => [[c]]
      | a :: as => (c :: a) :: as

/-- Python `str.startswith`. -/
def py_startswith (pfx s : String) : Bool := pfx.toList.isPrefixOf s.toList

/-- Python `str.endswith`. -/
def py_endswith (sfx s : String) : Bool := sfx.toList.isSuffixOf s.toList

/-- Python `sep.join(list)`. -/
def py_join (sep : String) : List String → String
  | [] => ""
  | [x] => x
  | x :: y :: xs => x ++ sep ++ py_join sep (y :: xs)

/-- Containment of `pat` as a contiguous substring of `s`, on char lists. -/
def list_contains_sub (pat : List Char) : List Char → Bool
  | [] => pat == []
  | c :: rest => pat.isPrefixOf (c :: rest) || list_contains_sub pat rest

/-- Substring containment on strings (Python `pat in s`). -/
def str_contains (s pat : String) : Bool := list_contains_sub pat.toList s.toList

/-! ## Sanitizer (src/app.py lines 17-37)

`sanitize_input` truncates to `max_length` characters and then calls
`bleach.clean(text, tags=['b','i','u','br','p','strong','em'],
attributes={}, strip=True)`.  `bleach` is an external library whose
sources are not part of this repository; its cleaning behaviour is
modelled from the specification below. -/

/-- The allow-listed formatting markers, opening and closing forms
(src/app.py line 26: `['b', 'i', 'u', 'br', 'p', 'strong', 'em']`,
with no attributes permitted). -/
def allowed_tags : List (List Char) :=
  ["b".toList, "i".toList, "u".toList, "br".toList, "p".toList,
   "strong".toList, "em".toList,
   "/b".toList, "/i".toList, "/u".toList, "/br".toList, "/p".toList,
   "/strong".toList, "/em".toList]

/-- Whether the text between `<` and `>` is exactly an allow-listed marker. -/
def is_allowed_tag (t : List Char) : Bool := allowed_tags.contains t

/-- Split a character list at the first `>`: returns the part before it
and the part after it, or `none` when there is no `>`. -/
def split_gt : List Char → Option (List Char × List Char)
  | [] => none
  | c :: rest =>
    if c = '>' then some ([], rest)
    else (split_gt rest).map (fun p => (c :: p.1, p.2))

theorem split_gt_some (l : List Char) (a b : List Char)
    (h : split_gt l = some (a, b)) : l = a ++ '>' :: b := by
  induction l generalizing a b with
  | nil => simp [split_gt] at h
  | cons c rest ih =>
    rw [split_gt] at h
    by_cases hc : c = '>'
    · rw [if_pos hc] at h
      simp at h
      simp [hc, ← h.1, h.2]
    · rw [if_neg hc] at h
      cases hsg : split_gt rest with
      | none => rw [hsg] at h; simp at h
      | some p =>
        obtain ⟨p1, p2⟩ := p
        rw [hsg] at h
        simp [Option.map] at h
        rw [← h.1, ← h.2]
        simp [ih p1 p2 hsg]

theorem split_gt_none (l : List Char) (h : split_gt l = none) : '>' ∉ l := by
  induction l with
  | nil => simp
  | cons c rest ih =>
    by_cases hc : c = '>'
    · simp [split_gt, hc] at h
    · simp [split_gt, hc, Option.map_eq_none] at h
      simp [ih h]
      exact fun hcc => hc hcc.symm

theorem split_gt_some_length (l : List Char) (a b : List Char)
    (h : split_gt l = some (a, b)) : l.length = a.length + 1 + b.length := by
  rw [split_gt_some l a b h]
  simp; omega

/-- Modelled from the spec: the external `bleach.clean(..., strip=True)`
step of the sanitizer (the `bleach` library is not part of this
repository's sources).  Per 4.1 of the specification, the text is
"filtered to retain only an allow-list of inline formatting markers
(bold, italic, underline, line-break, paragraph, strong, emphasis) with
no attributes permitted on any marker; everything else is stripped, not
escaped."  Accordingly: an allow-listed `<tag>` or `</tag>` with no
attributes is kept verbatim, any other `<...>` construct is removed
outright, a `<` with no later `>` is kept as plain text, and every
other character is kept.  The recursion is fuelled (structurally on
`fuel`) to keep the function kernel-reducible; the input's length is
always enough fuel, as proved by `bleach_clean_fuel_congr` below. -/
def bleach_clean_fuel : Nat → List Char → List Char
  | _, [] => []
  | 0, l => l
  | fuel + 1, c :: rest =>
    if c = '<' then
      match split_gt rest with
      | none => c :: bleach_clean_fuel fuel rest
      | some (inside, after) =>
        if is_allowed_tag inside then c :: (inside ++ '>' :: bleach_clean_fuel fuel after)
        else bleach_clean_fuel fuel after
    else c :: bleach_clean_fuel fuel rest

/-- The HTML-cleaning pass, run with adequate fuel. -/
def bleach_clean (l : List Char) : List Char := bleach_clean_fuel l.length l

theorem bleach_clean_fuel_congr :
    ∀ (fuel fuel' : Nat) (l : List Char), l.length ≤ fuel → l.length ≤ fuel' →
      bleach_clean_fuel fuel l = bleach_clean_fuel fuel' l := by
  intro fuel
  induction fuel with
  | zero =>
    intro fuel' l hl _
    have hl0 : l = [] := List.length_eq_zero.mp (Nat.le_zero.mp hl)
    subst hl0
    cases fuel' <;> rfl
  | succ fuel ih =>
    intro fuel' l hl hl'
    cases l with
    | nil => cases fuel' <;> rfl
    | cons c rest =>
      cases fuel' with
      | zero => simp at hl'
      | succ fuel'' =>
        simp only [List.length_cons, Nat.add_le_add_iff_right] at hl hl'
        simp only [bleach_clean_fuel]
        by_cases hc : c = '<'
        · rw [if_pos hc, if_pos hc]
          cases hsg : split_gt rest with
          | none =>
            simp only [hsg]
            rw [ih fuel'' rest hl hl']
          | some p =>
            obtain ⟨a, b⟩ := p
            have hblen : b.length ≤ rest.length := by
              have := split_gt_some_length rest a b hsg
              omega
            simp only [hsg]
            by_cases ha : is_allowed_tag a
            · rw [if_pos ha, if_pos ha,
                ih fuel'' b (le_trans hblen hl) (le_trans hblen hl')]
            · rw [if_neg ha, if_neg ha]
              exact ih fuel'' b (le_trans hblen hl) (le_trans hblen hl')
        · rw [if_neg hc, if_neg hc, ih fuel'' rest hl hl']

/-- `sanitize_input` from src/app.py lines 17-37: a falsy (empty) input
passes through unchanged; otherwise the text is truncated to
`max_length` characters and HTML-cleaned.  (The non-string input branch
of the Python code does not arise here, inputs being strings.) -/
def sanitize_input (text : String) (max_length : Nat := 5000) : String :=
  if text = "" then text
  else (bleach_clean (text.toList.take max_length)).asString

/-! ### Branch equations and induction principle for `bleach_clean` -/

theorem bleach_clean_nil : bleach_clean [] = [] := rfl

theorem bleach_clean_cons_ne (c : Char) (l : List Char) (hc : c ≠ '<') :
    bleach_clean (c :: l) = c :: bleach_clean l := by
  rw [bleach_clean, bleach_clean]
  simp only [List.length_cons, bleach_clean_fuel]
  rw [if_neg hc]

theorem bleach_clean_lt_none (l : List Char) (h : split_gt l = none) :
    bleach_clean ('<' :: l) = '<' :: bleach_clean l := by
  rw [bleach_clean, bleach_clean]
  simp only [List.length_cons, bleach_clean_fuel, if_true, h]

theorem bleach_clean_lt_some_allowed (l a b : List Char)
    (h : split_gt l = some (a, b)) (ha : is_allowed_tag a = true) :
    bleach_clean ('<' :: l) = '<' :: (a ++ '>' :: bleach_clean b) := by
  have hb : b.length ≤ l.length := by
    have := split_gt_some_length l a b h
    omega
  rw [bleach_clean, bleach_clean]
  simp only [List.length_cons, bleach_clean_fuel, if_true, h]
  simp only [ha, if_true]
  rw [bleach_clean_fuel_congr l.length b.length b hb le_rfl]

theorem bleach_clean_lt_some_not (l a b : List Char)
    (h : split_gt l = some (a, b)) (ha : is_allowed_tag a = false) :
    bleach_clean ('<' :: l) = bleach_clean b := by
  have hb : b.length ≤ l.length := by
    have := split_gt_some_length l a b h
    omega
  rw [bleach_clean, bleach_clean]
  simp only [List.length_cons, bleach_clean_fuel, if_true, h]
  simp only [ha, Bool.false_eq_true, if_false]
  rw [bleach_clean_fuel_congr l.length b.length b hb le_rfl]

theorem bleach_clean_cases_ind (motive : List Char → Prop)
    (hnil : motive [])
    (hlt_none : ∀ rest, split_gt rest = none → motive rest → motive ('<' :: rest))
    (hlt_keep : ∀ rest inside after, split_gt rest = some (inside, after) →
      is_allowed_tag inside = true → motive after → motive ('<' :: rest))
    (hlt_drop : ∀ rest inside after, split_gt rest = some (inside, after) →
      is_allowed_tag inside = false → motive after → motive ('<' :: rest))
    (hchr : ∀ c rest, c ≠ '<' → motive rest → motive (c :: rest)) :
    ∀ l, motive l := by
  have key : ∀ (n : Nat) (l : List Char), l.length ≤ n → motive l := by
    intro n
    induction n with
    | zero =>
      intro l hl
      have hl0 : l = [] := List.length_eq_zero.mp (Nat.le_zero.mp hl)
      subst hl0
      exact hnil
    | succ n ih =>
      intro l hl
      cases l with
      | nil => exact hnil
      | cons c rest =>
        simp only [List.length_cons, Nat.add_le_add_iff_right] at hl
        by_cases hc : c = '<'
        · subst hc
          cases hsg : split_gt rest with
          | none => exact hlt_none rest hsg (ih rest hl)
          | some p =>
            obtain ⟨a, b⟩ := p
            have hblen : b.length ≤ rest.length := by
              have := split_gt_some_length rest a b hsg
              omega
            by_cases ha : is_allowed_tag a
            · exact hlt_keep rest a b hsg ha (ih b (le_trans hblen hl))
            · exact hlt_drop rest a b hsg (by simpa using ha) (ih b (le_trans hblen hl))
        · exact hchr c rest hc (ih rest hl)
  exact fun l => key l.length l le_rfl

/-! ### Cleaning only removes characters -/

theorem bleach_clean_length (l : List Char) :
    (bleach_clean l).length ≤ l.length := by
  induction l using bleach_clean_cases_ind with
  | hnil => simp [bleach_clean_nil]
  | hlt_none rest h ih =>
    rw [bleach_clean_lt_none rest h]
    simpa using ih
  | hlt_keep rest inside after h ha ih =>
    rw [bleach_clean_lt_some_allowed rest inside after h ha]
    have hlen := split_gt_some_length rest inside after h
    simp only [List.length_cons, List.length_append] at hlen ⊢
    omega
  | hlt_drop rest inside after h ha ih =>
    rw [bleach_clean_lt_some_not rest inside after h ha]
    have hlen := split_gt_some_length rest inside after h
    simp only [List.length_cons] at hlen ⊢
    omega
  | hchr c rest hc ih =>
    rw [bleach_clean_cons_ne c rest hc]
    simpa using ih

theorem mem_bleach_clean (x : Char) (l : List Char)
    (hx : x ∈ bleach_clean l) : x ∈ l := by
  induction l using bleach_clean_cases_ind with
  | hnil => simpa [bleach_clean_nil] using hx
  | hlt_none rest h ih =>
    rw [bleach_clean_lt_none rest h] at hx
    rcases List.mem_cons.mp hx with h1 | h2
    · simp [h1]
    · simp [ih h2]
  | hlt_keep rest inside after h ha ih =>
    rw [bleach_clean_lt_some_allowed rest inside after h ha] at hx
    rw [split_gt_some rest inside after h]
    rcases List.mem_cons.mp hx with h1 | h2
    · simp [h1]
    · simp at h2 ⊢
      rcases h2 with h3 | h3 | h3
      · simp [h3]
      · simp [h3]
      · simp [ih h3]
  | hlt_drop rest inside after h ha ih =>
    rw [bleach_clean_lt_some_not rest inside after h ha] at hx
    rw [split_gt_some rest inside after h]
    simp [ih hx]
  | hchr c rest hc ih =>
    rw [bleach_clean_cons_ne c rest hc] at hx
    rcases List.mem_cons.mp hx with h1 | h2
    · simp [h1]
    · simp [ih h2]

/-! ### Idempotence of cleaning -/

theorem split_gt_append (t l : List Char) (h : '>' ∉ t) :
    split_gt (t ++ '>' :: l) = some (t, l) := by
  induction t with
  | nil => simp [split_gt]
  | cons c rest ih =>
    have hc : c ≠ '>' := by
      intro hcc
      exact h (by simp [hcc])
    have hr : '>' ∉ rest := fun hm => h (by simp [hm])
    simp [split_gt, hc, ih hr]

theorem allowed_tag_no_gt (t : List Char) (h : is_allowed_tag t = true) :
    '>' ∉ t := by
  have hmem : t ∈ allowed_tags := by
    simpa [is_allowed_tag] using h
  fin_cases hmem <;> decide

theorem allowed_tag_no_lt (t : List Char) (h : is_allowed_tag t = true) :
    '<' ∉ t := by
  have hmem : t ∈ allowed_tags := by
    simpa [is_allowed_tag] using h
  fin_cases hmem <;> decide

/-- Characterization of the strings `bleach_clean` leaves fixed: a mix of
plain characters, kept allow-listed markers, and a trailing `<` segment
containing no `>`. -/
inductive CleanOut : List Char → Prop
  | nil : CleanOut []
  | chr {c : Char} {l : List Char} : c ≠ '<' → CleanOut l → CleanOut (c :: l)
  | tag {t l : List Char} : is_allowed_tag t = true → CleanOut l →
      CleanOut ('<' :: (t ++ '>' :: l))
  | lt_no_gt {l : List Char} : '>' ∉ l → CleanOut l → CleanOut ('<' :: l)

theorem cleanOut_bleach_clean (l : List Char) : CleanOut (bleach_clean l) := by
  induction l using bleach_clean_cases_ind with
  | hnil => rw [bleach_clean_nil]; exact CleanOut.nil
  | hlt_none rest h ih =>
    rw [bleach_clean_lt_none rest h]
    have hng : '>' ∉ bleach_clean rest :=
      fun hm => split_gt_none rest h (mem_bleach_clean '>' rest hm)
    exact CleanOut.lt_no_gt hng ih
  | hlt_keep rest inside after h ha ih =>
    rw [bleach_clean_lt_some_allowed rest inside after h ha]
    exact CleanOut.tag ha ih
  | hlt_drop rest inside after h ha ih =>
    rw [bleach_clean_lt_some_not rest inside after h ha]
    exact ih
  | hchr c rest hc ih =>
    rw [bleach_clean_cons_ne c rest hc]
    exact CleanOut.chr hc ih

theorem bleach_clean_of_cleanOut (l : List Char) (h : CleanOut l) :
    bleach_clean l = l := by
  induction h with
  | nil => exact bleach_clean_nil
  | chr hc _ ih =>
    rename_i c t _
    rw [bleach_clean_cons_ne c t hc, ih]
  | tag ha _ ih =>
    rename_i t rest _
    rw [bleach_clean_lt_some_allowed (t ++ '>' :: rest) t rest
      (split_gt_append t rest (allowed_tag_no_gt t ha)) ha, ih]
  | lt_no_gt hng _ ih =>
    rename_i rest _
    have : split_gt rest = none := by
      cases hsg : split_gt rest with
      | none => rfl
      | some p =>
        obtain ⟨a, b⟩ := p
        exact absurd (by rw [split_gt_some rest a b hsg]; simp) hng
    rw [bleach_clean_lt_none rest this, ih]

theorem bleach_clean_idem (l : List Char) :
    bleach_clean (bleach_clean l) = bleach_clean l :=
  bleach_clean_of_cleanOut (bleach_clean l) (cleanOut_bleach_clean l)

theorem asString_length (l : List Char) : (l.asString).length = l.length := rfl

theorem toList_asString (l : List Char) : (l.asString).toList = l := rfl

theorem sanitize_aux_length (text : String) (n : Nat) :
    (sanitize_input text n).length ≤ n := by
  by_cases hx : text = ""
  · simp [sanitize_input, hx]
  · rw [sanitize_input, if_neg hx, asString_length]
    calc (bleach_clean (text.toList.take n)).length
        ≤ (text.toList.take n).length := bleach_clean_length _
      _ ≤ n := by rw [List.length_take]; omega

/-! ## Data model

Rows of the three persisted tables.  The `id` fields model the
auto-increment primary keys.  The Resume row's `experiences`,
`projects` and `certifications` columns hold `json.dumps` of the
decoded record lists when non-empty and SQL NULL when empty
(src/app.py lines 289, 295-296, 501, 518, 535); we store the record
lists themselves under the `Option`, the JSON text being a fixed
injective encoding of them. -/

structure ExperienceRec where
  job_title : String
  company : String
  job_desc : String
deriving DecidableEq, Repr

structure ProjectRec where
  name : String
  description : String
  link : String
deriving DecidableEq, Repr

structure CertificationRec where
  name : String
  issuer : String
  year : String
deriving DecidableEq, Repr

inductive Plan
  | free
  | pro
  | ultimate
deriving DecidableEq, Repr

/-- The `User` row.  `models.py` is not among the provided sources; the
fields used by `app.py` are reconstructed from the specification
(section 3: token balance, plan tier, last-generation timestamp,
last-token-reset timestamp) and from `app.py` itself (`tokens`, `plan`,
`last_generated` are assigned directly). Timestamps are modelled as
natural-number day counts. -/
structure UserM where
  id : Nat
  tokens : Nat
  plan : Plan
  last_reset_day : Nat
  last_generated : Nat
deriving DecidableEq, Repr

structure ResumeRec where
  id : Nat
  user_id : Nat
  name : String
  profession : String
  email : String
  phone : String
  linkedin : String
  github : String
  bio : String
  skills : String
  experiences : Option (List ExperienceRec)
  degree : String
  institute : String
  grad_year : String
  profile_pic_url : Option String
  template : String
  projects : Option (List ProjectRec)
  certifications : Option (List CertificationRec)
deriving DecidableEq, Repr

structure PurchaseRec where
  user_id : Nat
  amount : Nat
  description : String
deriving DecidableEq, Repr

/-- The database state visible to one request handler: the
authenticated current user's row, plus the Resume and Purchase tables. -/
structure AppState where
  user : UserM
  resumes : List ResumeRec
  purchases : List PurchaseRec
deriving DecidableEq, Repr

/-! ## Token and plan gate (User model methods)

Modelled from the spec: `models.py` is not among the provided sources,
so the `User` methods called by `app.py` (`reset_tokens_if_needed`,
`has_tokens`, `is_pro_user`, `is_ultimate_user`, `deduct_token`) are
modelled from specification section 4.4. -/

/-- Modelled from the spec: "hasTokens(user) -> bool: true if unlimited
or balance > 0"; section 8: "true for any ultimate-plan user regardless
of stored balance". -/
def has_tokens (u : UserM) : Bool := u.plan == Plan.ultimate || u.tokens > 0

/-- Modelled from the spec: plan-tier test used by the premium-template
gate. -/
def is_pro_user (u : UserM) : Bool := u.plan == Plan.pro

/-- Modelled from the spec: plan-tier test used by the premium-template
gate. -/
def is_ultimate_user (u : UserM) : Bool := u.plan == Plan.ultimate

/-- Modelled from the spec: "deductToken(user): decrements balance by 1
unless unlimited; never goes below 0" (`Nat` subtraction already floors
at 0). -/
def deduct_token (u : UserM) : UserM :=
  if u.plan = Plan.ultimate then u else { u with tokens := u.tokens - 1 }

/-- Modelled from the spec: "resetIfNeeded(user, now): if the last
reset timestamp is not within the current reset window (daily), restore
the free tier's baseline allotment (policy: only meaningfully resets
free-tier short allotments)".  The baseline (3 tokens) is the free-tier
allotment granted at registration (src/app.py line 809). -/
def reset_tokens_if_needed (u : UserM) (today : Nat) : UserM :=
  if u.plan = Plan.free ∧ u.last_reset_day ≠ today then
    { u with tokens := max u.tokens 3, last_reset_day := today }
  else u

/-- Iterated token deduction. -/
def deduct_iter : Nat → UserM → UserM
  | 0, u => u
  | n + 1, u => deduct_iter n (deduct_token u)

/-! ## Nested-form decoder

The form submission is a flat list of key/value pairs (Flask's
`request.form`, iterated in insertion order).  `form.get(k, d)`
returns the first value bound to `k`, or `d`. -/

/-- Flask `form.get(key, default)`. -/
def form_get (form : List (String × String)) (key dflt : String) : String :=
  match form.find? (fun p => p.1 == key) with
  | some p => p.2
  | none => dflt

/-- Flask `form[key]` (raises `KeyError` when absent, modelled as
`Option`). -/
def form_lookup (form : List (String × String)) (key : String) : Option String :=
  (form.find? (fun p => p.1 == key)).map Prod.snd

/-- `key.split('[')[1].split(']')[0]` (src/app.py lines 234, 250, 266,
490, 507, 524): the index token of a bracketed field name. -/
def extract_idx (key : String) : String :=
  ((py_split_char ']' ((py_split_char '[' key.toList).getD 1 [])).getD 0 []).asString

/-- The anchor-key test of the experiences loop:
`key.startswith('experiences[') and key.endswith('[job_title]')`. -/
def exp_anchor (key : String) : Bool :=
  py_startswith "experiences[" key && py_endswith "[job_title]" key

/-- The anchor-key test of the projects loop. -/
def proj_anchor (key : String) : Bool :=
  py_startswith "projects[" key && py_endswith "[name]" key

/-- The anchor-key test of the certifications loop. -/
def cert_anchor (key : String) : Bool :=
  py_startswith "certifications[" key && py_endswith "[name]" key

/-- The experience record looked up under index token `idx`
(src/app.py lines 235-237 and 491-493). -/
def exp_record (form : List (String × String)) (idx : String) : ExperienceRec :=
  { job_title :=
      sanitize_input (py_strip (form_get form ("experiences[" ++ idx ++ "][job_title]") "")),
    company :=
      sanitize_input (py_strip (form_get form ("experiences[" ++ idx ++ "][company]") "")),
    job_desc :=
      sanitize_input (py_strip (form_get form ("experiences[" ++ idx ++ "][job_desc]") "")) }

/-- The experiences required-field predicate: `if job_title or company`
(src/app.py lines 239, 495). -/
def exp_keep (form : List (String × String)) (idx : String) : Bool :=
  (exp_record form idx).job_title != "" || (exp_record form idx).company != ""

/-- The project record looked up under index token `idx` (src/app.py
lines 251-253 and 508-510).  The `link` field is only stripped, not
sanitized. -/
def proj_record (form : List (String × String)) (idx : String) : ProjectRec :=
  { name :=
      sanitize_input (py_strip (form_get form ("projects[" ++ idx ++ "][name]") "")),
    description :=
      sanitize_input (py_strip (form_get form ("projects[" ++ idx ++ "][description]") "")),
    link := py_strip (form_get form ("projects[" ++ idx ++ "][link]") "") }

/-- The projects required-field predicate: `if project_name`
(src/app.py lines 255, 512). -/
def proj_keep (form : List (String × String)) (idx : String) : Bool :=
  (proj_record form idx).name != ""

/-- The certification record looked up under index token `idx`
(src/app.py lines 267-269 and 525-527).  The `year` field is only
stripped, not sanitized. -/
def cert_record (form : List (String × String)) (idx : String) : CertificationRec :=
  { name :=
      sanitize_input (py_strip (form_get form ("certifications[" ++ idx ++ "][name]") "")),
    issuer :=
      sanitize_input (py_strip (form_get form ("certifications[" ++ idx ++ "][issuer]") "")),
    year := py_strip (form_get form ("certifications[" ++ idx ++ "][year]") "") }

/-- The certifications required-field predicate: `if cert_name`
(src/app.py lines 271, 529). -/
def cert_keep (form : List (String × String)) (idx : String) : Bool :=
  (cert_record form idx).name != ""

/-- The experiences decoding loop (src/app.py lines 231-244, identical
at 487-500): scan the form's keys, and for every anchor key build the
record for its index token, keeping it when the required-field
predicate holds. -/
def decode_experiences (form : List (String × String)) : List ExperienceRec :=
  (form.map Prod.fst).filterMap (fun key =>
    if exp_anchor key then
      if exp_keep form (extract_idx key) then some (exp_record form (extract_idx key))
      else none
    else none)

/-- The projects decoding loop (src/app.py lines 247-260, identical at
504-517). -/
def decode_projects (form : List (String × String)) : List ProjectRec :=
  (form.map Prod.fst).filterMap (fun key =>
    if proj_anchor key then
      if proj_keep form (extract_idx key) then some (proj_record form (extract_idx key))
      else none
    else none)

/-- The certifications decoding loop (src/app.py lines 263-276,
identical at 521-535). -/
def decode_certifications (form : List (String × String)) : List CertificationRec :=
  (form.map Prod.fst).filterMap (fun key =>
    if cert_anchor key then
      if cert_keep form (extract_idx key) then some (cert_record form (extract_idx key))
      else none
    else none)

/-! ### Index-token bookkeeping for the decoder

`X_kept_tokens form` lists, in key order, the index tokens discovered
through the group's anchor field whose looked-up record satisfies the
group's required-field predicate — the decoder is proved to emit
exactly one record per entry of this list, and the list is proved
duplicate-free on well-formed submissions. -/

def exp_kept_tokens (form : List (String × String)) : List String :=
  (((form.map Prod.fst).filter exp_anchor).map extract_idx).filter (exp_keep form)

def proj_kept_tokens (form : List (String × String)) : List String :=
  (((form.map Prod.fst).filter proj_anchor).map extract_idx).filter (proj_keep form)

def cert_kept_tokens (form : List (String × String)) : List String :=
  (((form.map Prod.fst).filter cert_anchor).map extract_idx).filter (cert_keep form)

/-- A form key is well-formed bracketed for a group when, if it matches
the group's anchor test (`startswith pfx` and `endswith sfx`), it has
the exact shape `pfx ++ idx ++ "]" ++ sfx` for a bracket-free index
token `idx` — which `extract_idx` then recovers. -/
def well_formed_key (pfx sfx k : String) : Bool :=
  !(py_startswith pfx k && py_endswith sfx k) ||
    (!(extract_idx k).toList.contains '[' &&
     !(extract_idx k).toList.contains ']' &&
     k == pfx ++ extract_idx k ++ "]" ++ sfx)

/-- A well-formed bracketed form submission: no duplicate keys, and
every key matching one of the three anchor patterns has the bracketed
shape `group[INDEX][anchor]`. -/
def well_formed_form (form : List (String × String)) : Prop :=
  (form.map Prod.fst).Nodup ∧
  ∀ k ∈ form.map Prod.fst,
    well_formed_key "experiences[" "[job_title]" k = true ∧
    well_formed_key "projects[" "[name]" k = true ∧
    well_formed_key "certifications[" "[name]" k = true

instance (form : List (String × String)) : Decidable (well_formed_form form) := by
  unfold well_formed_form
  infer_instance

/-! ## Bio generation (src/app.py lines 605-685)

`get_ai_response` performs a network call; its outcome (the text, or
`None` after exhausted retries or a missing credential) enters the model
as an `Option String` parameter.  `random.choice` over the three
fallback templates enters as a `choice : Nat` parameter selecting
`templates[choice % 3]`. -/

/-- `','`-splitting with per-piece strip and removal of empty pieces:
`[s.strip() for s in skills.split(',') if s.strip()]` (src/app.py
lines 218, 667). -/
def split_skills (s : String) : List String :=
  ((py_split_char ',' s.toList).map (fun t => (strip_list t).asString)).filter
    (fun t => t != "")

/-- Python `bio[1:-1]` applied when `bio` starts and ends with the
quote `q` (src/app.py lines 653-656). -/
def strip_wrapping (q : Char) (l : List Char) : List Char :=
  if l.head? = some q ∧ l.getLast? = some q then (l.drop 1).dropLast else l

/-- `generate_fallback_bio` (src/app.py lines 663-685): deterministic
templated bios; `random.choice(templates)` is modelled by the `choice`
parameter selecting `templates[choice % 3]`. -/
def generate_fallback_bio (choice : Nat) (name profession skills : String) : String :=
  let skills_list := split_skills skills
  let skill_text :=
    match skills_list with
    | s0 :: s1 :: s2 :: _ => s0 ++ ", " ++ s1 ++ ", and " ++ s2
    | [s0, s1] => s0 ++ " and " ++ s1
    | [s0] => s0
    | [] => "various technologies"
  let templates :=
    ["I\x27m " ++ name ++ ", a " ++ profession ++ " with expertise in " ++ skill_text ++
       ". I\x27m passionate about creating impactful solutions and continuously learning new technologies.",
     "I\x27m a " ++ profession ++ " specializing in " ++ skill_text ++
       ". I combine technical expertise with creative problem-solving to deliver high-quality results.",
     "As a " ++ profession ++ ", I leverage " ++ skill_text ++
       " to build innovative solutions. I\x27m committed to writing clean code and collaborating effectively with teams."]
  templates.getD (choice % 3) ""

/-- `generate_bio` (src/app.py lines 605-661): when the AI service
returned text, strip it and remove wrapping quotes; otherwise fall back
to `generate_fallback_bio`. -/
def generate_bio (aiBio : Option String) (choice : Nat)
    (name profession skills : String) : String :=
  match aiBio with
  | some bio =>
    if bio = "" then generate_fallback_bio choice name profession skills
    else
      (strip_wrapping '\x27' (strip_wrapping '"' (py_strip bio).toList)).asString
  | none => generate_fallback_bio choice name profession skills

/-! ## Route handlers -/

inductive GenResult
  | refusedPremium
  | refusedTokens
  | error
  | ok
deriving DecidableEq, Repr

/-- The next auto-increment id for the Resume table. -/
def next_resume_id (rs : List ResumeRec) : Nat :=
  (rs.map (fun r => r.id)).foldr max 0 + 1

/-- The `/generate` handler (src/app.py lines 165-339).

Modelling notes: `FREE_TEMPLATES` comes from `config.py`, which is not
among the provided sources, so it enters as the `free_templates`
parameter.  The profile-picture upload (steps 4) touches the file
system and is not modelled; the created row's `profile_pic_url` is the
no-upload value `None`.  A `KeyError` on `form['name']` or
`form['profession']` (the only required fields accessed with `[]`)
rolls the transaction back to the state left by the already-committed
step 1 (`reset_tokens_if_needed` plus `db.session.commit()`), which is
also the state any earlier refusal leaves behind. -/
def generate (free_templates : List String) (today : Nat) (aiBio : Option String)
    (choice : Nat) (form : List (String × String)) (st : AppState) :
    GenResult × AppState :=
  let u := reset_tokens_if_needed st.user today
  let template := form_get form "template" "classic"
  let is_premium := !(free_templates.contains template)
  if is_premium && !(is_pro_user u || is_ultimate_user u) then
    (GenResult.refusedPremium, { st with user := u })
  else if !(has_tokens u) then
    (GenResult.refusedTokens, { st with user := u })
  else
    match form_lookup form "name", form_lookup form "profession" with
    | some nameRaw, some professionRaw =>
      let skills := split_skills (form_get form "skills" "")
      let bio_input := sanitize_input (py_strip (form_get form "bio" ""))
      let bio :=
        if bio_input = "" then
          generate_bio aiBio choice (sanitize_input nameRaw)
            (sanitize_input professionRaw) (py_join ", " skills)
        else bio_input
      let experiences := decode_experiences form
      let projects := decode_projects form
      let certifications := decode_certifications form
      let resume : ResumeRec :=
        { id := next_resume_id st.resumes,
          user_id := u.id,
          name := sanitize_input nameRaw,
          profession := sanitize_input professionRaw,
          email := form_get form "email" "",
          phone := form_get form "phone" "",
          linkedin := form_get form "linkedin" "",
          github := form_get form "github" "",
          bio := bio,
          skills := py_join "," skills,
          experiences := if experiences = [] then none else some experiences,
          degree := sanitize_input (form_get form "degree" ""),
          institute := sanitize_input (form_get form "institute" ""),
          grad_year := form_get form "grad_year" "",
          profile_pic_url := none,
          template := template,
          projects := if projects = [] then none else some projects,
          certifications := if certifications = [] then none else some certifications }
      let u2 := { deduct_token u with last_generated := today }
      (GenResult.ok,
        { user := u2, resumes := st.resumes ++ [resume], purchases := st.purchases })
    | _, _ => (GenResult.error, { st with user := u })

/-- The POST branch of the `/resume/<id>/edit` handler (src/app.py
lines 430-539), acting on the already-ownership-checked row.  The
profile-picture replacement (file-system step) is not modelled; the
row's `profile_pic_url` is left as it was (the no-upload case). -/
def edit_resume_post (form : List (String × String)) (original : ResumeRec) :
    ResumeRec :=
  { original with
    name := sanitize_input (form_get form "name" ""),
    profession := sanitize_input (form_get form "profession" ""),
    email := form_get form "email" "",
    phone := form_get form "phone" "",
    linkedin := form_get form "linkedin" "",
    github := form_get form "github" "",
    bio := sanitize_input (form_get form "bio" ""),
    skills := form_get form "skills" "",
    degree := sanitize_input (form_get form "degree" ""),
    institute := sanitize_input (form_get form "institute" ""),
    grad_year := form_get form "grad_year" "",
    template := form_get form "template" "classic",
    experiences :=
      (if decode_experiences form = [] then none else some (decode_experiences form)),
    projects :=
      (if decode_projects form = [] then none else some (decode_projects form)),
    certifications :=
      (if decode_certifications form = [] then none
       else some (decode_certifications form)) }

inductive DeleteResult
  | notFound
  | unauthorized
  | deleted
deriving DecidableEq, Repr

/-- The `/delete_resume/<id>` handler (src/app.py lines 376-393):
look the row up by id (`get_or_404`), refuse unless the requester owns
it, otherwise delete the row and commit. -/
def delete_resume (current_user_id resume_id : Nat)
    (resumes : List ResumeRec) : DeleteResult × List ResumeRec :=
  match resumes.find? (fun r => r.id == resume_id) with
  | none => (DeleteResult.notFound, resumes)
  | some r =>
    if r.user_id != current_user_id then (DeleteResult.unauthorized, resumes)
    else (DeleteResult.deleted, resumes.filter (fun r2 => !(r2.id == resume_id)))

/-- `price_map.get(count, 0)` with `price_map = {1: 50, 5: 100}`
(src/app.py lines 564-565). -/
def price_map_get (count : Nat) : Nat :=
  if count = 1 then 50 else if count = 5 then 100 else 0

/-- The `/buy_token/<count>` handler (src/app.py lines 561-576): an
unknown pack size is refused with no mutation; a known one adds
`count` tokens and records one Purchase at the pack's price.  The
returned `Bool` is whether the purchase succeeded. -/
def buy_token (count : Nat) (st : AppState) : Bool × AppState :=
  let amount := price_map_get count
  if amount = 0 then (false, st)
  else
    (true,
      { st with
        user := { st.user with tokens := st.user.tokens + count },
        purchases := st.purchases ++
          [{ user_id := st.user.id, amount := amount,
             description := toString count ++ " Token Pack" }] })

/-- The `/upgrade/<plan>` handler (src/app.py lines 578-597): `pro`
adds 15 tokens and records a 199 Purchase; `ultimate` sets the balance
to the unlimited sentinel 9999 and records a 499 Purchase; anything
else is refused with no mutation. -/
def upgrade (plan : String) (st : AppState) : AppState :=
  if plan = "pro" then
    { st with
      user := { st.user with tokens := st.user.tokens + 15, plan := Plan.pro },
      purchases := st.purchases ++
        [{ user_id := st.user.id, amount := 199, description := "Pro Pack" }] }
  else if plan = "ultimate" then
    { st with
      user := { st.user with tokens := 9999, plan := Plan.ultimate },
      purchases := st.purchases ++
        [{ user_id := st.user.id, amount := 499, description := "Ultimate Pack" }] }
  else st

/-! ## Concrete fixtures used by the witness theorems -/

def sample_form : List (String × String) :=
  [("experiences[0][job_title]", "Dev"),
   ("experiences[0][company]", "Acme"),
   ("experiences[1][job_title]", " "),
   ("projects[7][name]", "P1"),
   ("certifications[a][name]", "Cert")]

def free_user_no_tokens : UserM :=
  { id := 1, tokens := 0, plan := Plan.free, last_reset_day := 0, last_generated := 0 }

def state_no_tokens : AppState :=
  { user := free_user_no_tokens, resumes := [], purchases := [] }

def ada_user : UserM :=
  { id := 1, tokens := 3, plan := Plan.free, last_reset_day := 0, last_generated := 0 }

def st_ada : AppState := { user := ada_user, resumes := [], purchases := [] }

def form_ada : List (String × String) :=
  [("name", "Ada"), ("profession", "Engineer"), ("skills", "Python,Go"), ("bio", "")]

/-- The Resume row `/generate` creates from `form_ada` in `st_ada` when
the AI service is unavailable, parameterized by the random template
choice. -/
def resume_ada (c : Nat) : ResumeRec :=
  { id := 1, user_id := 1, name := "Ada", profession := "Engineer",
    email := "", phone := "", linkedin := "", github := "",
    bio := generate_fallback_bio c "Ada" "Engineer" "Python, Go",
    skills := "Python,Go", experiences := none, degree := "", institute := "",
    grad_year := "", profile_pic_url := none, template := "classic",
    projects := none, certifications := none }

def sample_state : AppState :=
  { user := { id := 3, tokens := 7, plan := Plan.free, last_reset_day := 0,
              last_generated := 0 },
    resumes := [], purchases := [] }

def ultimate_user : UserM :=
  { id := 2, tokens := 9999, plan := Plan.ultimate, last_reset_day := 0,
    last_generated := 0 }

def stored_resume : ResumeRec :=
  { id := 5, user_id := 1, name := "N", profession := "Eng",
    email := "", phone := "", linkedin := "", github := "", bio := "b",
    skills := "s",
    experiences := some [{ job_title := "Old", company := "OldCo", job_desc := "" }],
    degree := "", institute := "", grad_year := "", profile_pic_url := none,
    template := "classic", projects := none, certifications := none }

def form_no_exp : List (String × String) := [("name", "N2"), ("skills", "")]

def other_users_resume : ResumeRec :=
  { id := 10, user_id := 2, name := "X", profession := "Y",
    email := "", phone := "", linkedin := "", github := "", bio := "",
    skills := "", experiences := none, degree := "", institute := "",
    grad_year := "", profile_pic_url := none, template := "classic",
    projects := none, certifications := none }

def form_premium : List (String × String) := [("template", "fancy")]

def form_markup : List (String × String) :=
  [("projects[0][name]", "P"),
   ("projects[0][description]", "<script>d</script>x"),
   ("projects[0][link]", " <script>evil()</script> "),
   ("certifications[0][name]", "C"),
   ("certifications[0][issuer]", "I"),
   ("certifications[0][year]", "<script>2020</script>")]

/-! # Theorems -/

/-! ## Decoder structure lemmas (C1) -/

theorem filterMap_decode {α : Type} (p : String → Bool) (g : String → String)
    (q : String → Bool) (r : String → α) (ks : List String) :
    ks.filterMap
        (fun k => if p k then (if q (g k) then some (r (g k)) else none) else none) =
      (((ks.filter p).map g).filter q).map r := by
  induction ks with
  | nil => rfl
  | cons k ks ih =>
    by_cases hp : p k
    · by_cases hq : q (g k) <;>
        simp [List.filterMap_cons, List.filter_cons, hp, hq, ih]
    · simp [List.filterMap_cons, List.filter_cons, hp, ih]

theorem decode_experiences_eq (form : List (String × String)) :
    decode_experiences form = (exp_kept_tokens form).map (exp_record form) :=
  filterMap_decode exp_anchor extract_idx (exp_keep form) (exp_record form)
    (form.map Prod.fst)

theorem decode_projects_eq (form : List (String × String)) :
    decode_projects form = (proj_kept_tokens form).map (proj_record form) :=
  filterMap_decode proj_anchor extract_idx (proj_keep form) (proj_record form)
    (form.map Prod.fst)

theorem decode_certifications_eq (form : List (String × String)) :
    decode_certifications form = (cert_kept_tokens form).map (cert_record form) :=
  filterMap_decode cert_anchor extract_idx (cert_keep form) (cert_record form)
    (form.map Prod.fst)

theorem well_formed_key_shape (pfx sfx k : String)
    (hwf : well_formed_key pfx sfx k = true)
    (ha : (py_startswith pfx k && py_endswith sfx k) = true) :
    k = pfx ++ extract_idx k ++ "]" ++ sfx := by
  rw [well_formed_key, ha] at hwf
  simp at hwf
  exact hwf.2

theorem kept_tokens_nodup (pfx sfx : String) (anchor keep : String → Bool)
    (form : List (String × String))
    (hnd : (form.map Prod.fst).Nodup)
    (hwf : ∀ k ∈ form.map Prod.fst, well_formed_key pfx sfx k = true)
    (hanchor : ∀ k, anchor k = true →
      (py_startswith pfx k && py_endswith sfx k) = true) :
    ((((form.map Prod.fst).filter anchor).map extract_idx).filter keep).Nodup := by
  apply List.Nodup.filter
  apply List.Nodup.map_on
  · intro x hx y hy hxy
    have hxm := List.mem_filter.mp hx
    have hym := List.mem_filter.mp hy
    have hxs := well_formed_key_shape pfx sfx x (hwf x hxm.1) (hanchor x hxm.2)
    have hys := well_formed_key_shape pfx sfx y (hwf y hym.1) (hanchor y hym.2)
    rw [hxs, hys, hxy]
  · exact hnd.filter _

/-- C1: for every well-formed bracketed form submission and each group
(experiences, projects, certifications), the decoder emits exactly one
record per distinct index token whose fields satisfy that group's
required-field predicate — the emitted list equals the map of the
group's record constructor over the duplicate-free list of kept index
tokens — and emits zero records for an empty submission. -/
theorem decoder_one_record_per_index_token
    (form : List (String × String)) (hwf : well_formed_form form) :
    (decode_experiences form = (exp_kept_tokens form).map (exp_record form) ∧
      (exp_kept_tokens form).Nodup) ∧
    (decode_projects form = (proj_kept_tokens form).map (proj_record form) ∧
      (proj_kept_tokens form).Nodup) ∧
    (decode_certifications form = (cert_kept_tokens form).map (cert_record form) ∧
      (cert_kept_tokens form).Nodup) ∧
    (decode_experiences [] = [] ∧ decode_projects [] = [] ∧
      decode_certifications [] = []) := by
  obtain ⟨hnd, hkeys⟩ := hwf
  refine ⟨⟨decode_experiences_eq form, ?_⟩, ⟨decode_projects_eq form, ?_⟩,
    ⟨decode_certifications_eq form, ?_⟩, rfl, rfl, rfl⟩
  · exact kept_tokens_nodup "experiences[" "[job_title]" exp_anchor (exp_keep form)
      form hnd (fun k hk => (hkeys k hk).1) (fun k h => h)
  · exact kept_tokens_nodup "projects[" "[name]" proj_anchor (proj_keep form)
      form hnd (fun k hk => (hkeys k hk).2.1) (fun k h => h)
  · exact kept_tokens_nodup "certifications[" "[name]" cert_anchor (cert_keep form)
      form hnd (fun k hk => (hkeys k hk).2.2) (fun k h => h)

/-- Witness for C1: the decoder theorem applied to a concrete
well-formed five-key submission. -/
theorem decoder_one_record_per_index_token_witness :
    (decode_experiences sample_form =
        (exp_kept_tokens sample_form).map (exp_record sample_form) ∧
      (exp_kept_tokens sample_form).Nodup) ∧
    (decode_projects sample_form =
        (proj_kept_tokens sample_form).map (proj_record sample_form) ∧
      (proj_kept_tokens sample_form).Nodup) ∧
    (decode_certifications sample_form =
        (cert_kept_tokens sample_form).map (cert_record sample_form) ∧
      (cert_kept_tokens sample_form).Nodup) ∧
    (decode_experiences [] = [] ∧ decode_projects [] = [] ∧
      decode_certifications [] = []) :=
  decoder_one_record_per_index_token sample_form (by decide)

/-! ## Sanitizer properties (C3, C4) -/

/-- C3: for every string input and every `maxLength`, `sanitize_input`
returns a string of length at most `maxLength` (in particular at most
the default 5000). -/
theorem sanitize_input_length_bound (text : String) (max_length : Nat) :
    (sanitize_input text max_length).length ≤ max_length ∧
    (sanitize_input text).length ≤ 5000 :=
  ⟨sanitize_aux_length text max_length, sanitize_aux_length text 5000⟩

/-- C4: `sanitize_input` is idempotent — re-sanitizing a sanitized
string is a no-op. -/
theorem sanitize_input_idempotent (x : String) :
    sanitize_input (sanitize_input x) = sanitize_input x := by
  by_cases hx : x = ""
  · subst hx
    rfl
  · rw [show sanitize_input x = (bleach_clean (x.toList.take 5000)).asString from by
      rw [sanitize_input, if_neg hx]]
    by_cases h0 : (bleach_clean (x.toList.take 5000)).asString = ""
    · rw [sanitize_input, if_pos h0]
    · rw [sanitize_input, if_neg h0]
      congr 1
      rw [toList_asString]
      have h2 : (bleach_clean (x.toList.take 5000)).length ≤ 5000 := by
        calc (bleach_clean (x.toList.take 5000)).length
            ≤ (x.toList.take 5000).length := bleach_clean_length _
          _ ≤ 5000 := by rw [List.length_take]; omega
      rw [List.take_of_length_le h2]
      exact bleach_clean_idem _

/-! ## Token-gated generation (C2) -/

/-- C2 counterexample: a refused generation does not always leave the
user's balance unchanged.  `/generate` runs and commits the daily token
reset (src/app.py lines 170-171) before the premium and balance gates,
so a free user with a stale reset day and zero tokens who requests a
premium template is refused — yet the committed balance has changed
from 0 to the restored baseline 3. -/
theorem generate_refusal_balance_changed :
    (generate ["classic"] 1 none 0 form_premium state_no_tokens).1 =
      GenResult.refusedPremium ∧
    (generate ["classic"] 1 none 0 form_premium state_no_tokens).2.resumes =
      state_no_tokens.resumes ∧
    state_no_tokens.user.tokens = 0 ∧
    (generate ["classic"] 1 none 0 form_premium state_no_tokens).2.user.tokens =
      3 := by decide

/-- C2 (amended): when the selected template is premium and the user's
plan is neither pro nor ultimate, or when the token balance check
fails, generation is refused: no Resume row is created, no Purchase is
recorded, and no token is deducted — the balance stays at the value
left by the step-1 daily reset, which runs and commits before the gate
and is the only way it can differ from the pre-request balance. -/
theorem generate_refusal_no_mutation
    (free_templates : List String) (today : Nat) (aiBio : Option String)
    (choice : Nat) (form : List (String × String)) (st : AppState)
    (h : (free_templates.contains (form_get form "template" "classic") = false ∧
          is_pro_user (reset_tokens_if_needed st.user today) = false ∧
          is_ultimate_user (reset_tokens_if_needed st.user today) = false) ∨
         has_tokens (reset_tokens_if_needed st.user today) = false) :
    ((generate free_templates today aiBio choice form st).1 = GenResult.refusedPremium ∨
      (generate free_templates today aiBio choice form st).1 = GenResult.refusedTokens) ∧
    (generate free_templates today aiBio choice form st).2.resumes = st.resumes ∧
    (generate free_templates today aiBio choice form st).2.purchases = st.purchases ∧
    (generate free_templates today aiBio choice form st).2.user.tokens =
      (reset_tokens_if_needed st.user today).tokens := by
  by_cases hc1 :
      (!(free_templates.contains (form_get form "template" "classic")) &&
        !(is_pro_user (reset_tokens_if_needed st.user today) ||
          is_ultimate_user (reset_tokens_if_needed st.user today))) = true
  · simp only [Bool.and_eq_true, Bool.not_eq_true', Bool.or_eq_false_iff] at hc1
    obtain ⟨hfree, hpro, hult⟩ := hc1
    have hprem : form_get form "template" "classic" ∉ free_templates := by
      simpa using hfree
    simp [generate, hfree, hprem, hpro, hult]
  · have htok : has_tokens (reset_tokens_if_needed st.user today) = false := by
      rcases h with ⟨hfree, hpro, hult⟩ | htok
      · exact absurd (by rw [hfree, hpro, hult]; rfl) hc1
      · exact htok
    simp only [generate]
    split
    · simp
    · simp [htok]

/-- Witness for C2: a free-plan user with zero tokens is refused on an
empty form; the state is untouched. -/
theorem generate_refusal_no_mutation_witness :
    ((generate ["classic"] 0 none 0 [] state_no_tokens).1 = GenResult.refusedPremium ∨
      (generate ["classic"] 0 none 0 [] state_no_tokens).1 = GenResult.refusedTokens) ∧
    (generate ["classic"] 0 none 0 [] state_no_tokens).2.resumes =
      state_no_tokens.resumes ∧
    (generate ["classic"] 0 none 0 [] state_no_tokens).2.purchases =
      state_no_tokens.purchases ∧
    (generate ["classic"] 0 none 0 [] state_no_tokens).2.user.tokens =
      (reset_tokens_if_needed state_no_tokens.user 0).tokens :=
  generate_refusal_no_mutation ["classic"] 0 none 0 [] state_no_tokens
    (Or.inr (by decide))

/-! ## Fallback bio on AI failure (C5) -/

theorem generate_ada_eval (c : Nat) :
    generate ["classic"] 0 none c form_ada st_ada =
      (GenResult.ok,
        { user := { id := 1, tokens := 2, plan := Plan.free, last_reset_day := 0,
                    last_generated := 0 },
          resumes := [resume_ada c], purchases := [] }) := rfl

theorem generate_fallback_bio_mod (c : Nat) (n p s : String) :
    generate_fallback_bio c n p s = generate_fallback_bio (c % 3) n p s := by
  rw [generate_fallback_bio, generate_fallback_bio]
  have h3 : c % 3 % 3 = c % 3 := by omega
  rw [h3]

/-- C5 counterexample: with the AI service unavailable and an empty bio
field, generation for name "Ada", profession "Engineer", skills
"Python,Go" is neither deterministic nor guaranteed to mention "Ada":
when `random.choice` picks the second template the stored bio does not
contain "Ada", and it differs from the bio the first template gives. -/
theorem generated_fallback_bio_missing_name :
    ((generate ["classic"] 0 none 1 form_ada st_ada).2.resumes.map
        (fun r => str_contains r.bio "Ada")) = [false] ∧
    (generate ["classic"] 0 none 0 form_ada st_ada).2.resumes ≠
      (generate ["classic"] 0 none 1 form_ada st_ada).2.resumes := by decide

/-- C5 (amended): when the AI service is unavailable and the bio field
is empty, generation with name "Ada", profession "Engineer", skills
"Python,Go" succeeds and stores one of three templated first-person
bios chosen by `random.choice`; every one of the three contains
"Engineer" and both skill names "Python" and "Go", and the first
template's bio also contains "Ada". -/
theorem generated_fallback_bio_contents (choice : Nat) :
    (generate ["classic"] 0 none choice form_ada st_ada).1 = GenResult.ok ∧
    ((generate ["classic"] 0 none choice form_ada st_ada).2.resumes.map
        (fun r => str_contains r.bio "Engineer" && str_contains r.bio "Python" &&
          str_contains r.bio "Go")) = [true] ∧
    ((generate ["classic"] 0 none 0 form_ada st_ada).2.resumes.map
        (fun r => str_contains r.bio "Ada")) = [true] := by
  refine ⟨by rw [generate_ada_eval], ?_, by decide⟩
  rw [generate_ada_eval]
  simp only [List.map_cons, List.map_nil]
  rw [show (resume_ada choice).bio =
        generate_fallback_bio choice "Ada" "Engineer" "Python, Go" from rfl,
    generate_fallback_bio_mod choice]
  have h3 : choice % 3 = 0 ∨ choice % 3 = 1 ∨ choice % 3 = 2 := by omega
  rcases h3 with h | h | h <;> rw [h] <;> decide

/-! ## Ultimate upgrade and the unlimited sentinel (C6) -/

theorem deduct_iter_ultimate (n : Nat) (u : UserM)
    (hu : u.plan = Plan.ultimate) : deduct_iter n u = u := by
  induction n with
  | zero => rfl
  | succ n ih =>
    rw [deduct_iter, deduct_token, if_pos hu, ih]

/-- C6: after `upgrade(user, "ultimate")` the balance is the unlimited
sentinel 9999, any number of subsequent `deduct_token` calls leaves it
at 9999, and the predicate "an ultimate-plan user's balance is the
unlimited sentinel" is preserved by `deduct_token`. -/
theorem upgrade_ultimate_unlimited (st : AppState) (n : Nat) :
    (upgrade "ultimate" st).user.tokens = 9999 ∧
    (deduct_iter n (upgrade "ultimate" st).user).tokens = 9999 ∧
    (∀ u : UserM, u.plan = Plan.ultimate → u.tokens = 9999 →
      (deduct_token u).plan = Plan.ultimate ∧ (deduct_token u).tokens = 9999) := by
  have hup : (upgrade "ultimate" st).user =
      { st.user with tokens := 9999, plan := Plan.ultimate } := by
    rw [upgrade, if_neg (by decide), if_pos rfl]
  refine ⟨by rw [hup], ?_, ?_⟩
  · rw [hup, deduct_iter_ultimate n _ rfl]
  · intro u hu ht
    rw [deduct_token, if_pos hu]
    exact ⟨hu, ht⟩

/-- Witness for C6: a concrete state upgraded to ultimate, three
deductions later the balance is still the sentinel; and the
preservation clause applied to a concrete ultimate user. -/
theorem upgrade_ultimate_unlimited_witness :
    ((upgrade "ultimate" sample_state).user.tokens = 9999 ∧
      (deduct_iter 3 (upgrade "ultimate" sample_state).user).tokens = 9999) ∧
    ((deduct_token ultimate_user).plan = Plan.ultimate ∧
      (deduct_token ultimate_user).tokens = 9999) :=
  ⟨⟨(upgrade_ultimate_unlimited sample_state 3).1,
    (upgrade_ultimate_unlimited sample_state 3).2.1⟩,
   (upgrade_ultimate_unlimited sample_state 3).2.2 ultimate_user rfl rfl⟩

/-! ## Token pack purchase (C7) -/

/-- C7: `buy_token` with a count that is not a known pack size (1 or 5)
is rejected atomically — the state is returned unchanged, so the
balance is untouched and no Purchase row is recorded; with a known pack
size the balance grows by exactly `count` and exactly one Purchase is
appended at that pack's fixed price (50 for the 1-pack, 100 for the
5-pack). -/
theorem buy_token_pack_gate (count : Nat) (st : AppState) :
    (count ≠ 1 → count ≠ 5 → buy_token count st = (false, st)) ∧
    (count = 1 ∨ count = 5 →
      (buy_token count st).2.user.tokens = st.user.tokens + count ∧
      (buy_token count st).2.resumes = st.resumes ∧
      (buy_token count st).2.purchases = st.purchases ++
        [{ user_id := st.user.id,
           amount := if count = 1 then 50 else 100,
           description := toString count ++ " Token Pack" }]) := by
  constructor
  · intro h1 h5
    have hz : price_map_get count = 0 := by
      rw [price_map_get, if_neg h1, if_neg h5]
    rw [buy_token]
    simp [hz]
  · rintro (rfl | rfl)
    · simp [buy_token, price_map_get]
    · simp [buy_token, price_map_get]

/-- Witness for C7: the unknown 3-pack is rejected on a concrete state;
the 5-pack adds five tokens and records one 100-priced Purchase. -/
theorem buy_token_pack_gate_witness :
    buy_token 3 sample_state = (false, sample_state) ∧
    (buy_token 5 sample_state).2.user.tokens = sample_state.user.tokens + 5 ∧
    (buy_token 5 sample_state).2.purchases = sample_state.purchases ++
      [{ user_id := sample_state.user.id, amount := 100,
         description := "5 Token Pack" }] := by
  refine ⟨(buy_token_pack_gate 3 sample_state).1 (by decide) (by decide), ?_, ?_⟩
  · exact ((buy_token_pack_gate 5 sample_state).2 (Or.inr rfl)).1
  · have h := ((buy_token_pack_gate 5 sample_state).2 (Or.inr rfl)).2.2
    simpa using h

/-! ## Wholesale replacement of sub-record lists on edit (C8) -/

/-- C8: an edit submission replaces the stored sub-record lists
wholesale with the decoded submission (NULL when the decoded list is
empty), independently of what was stored before; in particular an edit
submitting zero experience groups clears any previously stored
experiences. -/
theorem edit_replaces_sublists_wholesale (form : List (String × String))
    (original : ResumeRec) :
    (edit_resume_post form original).experiences =
      (if decode_experiences form = [] then none
       else some (decode_experiences form)) ∧
    (edit_resume_post form original).projects =
      (if decode_projects form = [] then none else some (decode_projects form)) ∧
    (edit_resume_post form original).certifications =
      (if decode_certifications form = [] then none
       else some (decode_certifications form)) ∧
    ((∀ k ∈ form.map Prod.fst, exp_anchor k = false) →
      (edit_resume_post form original).experiences = none) := by
  refine ⟨rfl, rfl, rfl, ?_⟩
  intro hnone
  have hdec : decode_experiences form = [] := by
    rw [decode_experiences, List.filterMap_eq_nil]
    intro k hk
    rw [hnone k hk]
    rfl
  show (if decode_experiences form = [] then none
    else some (decode_experiences form)) = none
  rw [if_pos hdec]

/-- Witness for C8: editing a resume that has one stored experience
with a form containing no experience group clears the stored
experiences. -/
theorem edit_replaces_sublists_wholesale_witness :
    stored_resume.experiences =
      some [{ job_title := "Old", company := "OldCo", job_desc := "" }] ∧
    (edit_resume_post form_no_exp stored_resume).experiences = none :=
  ⟨rfl,
   (edit_replaces_sublists_wholesale form_no_exp stored_resume).2.2.2 (by decide)⟩

/-! ## Delete requires ownership (C9) -/

/-- C9: a delete request on a resume whose owner is not the requesting
user leaves the resume table unchanged and returns the unauthorized
denial. -/
theorem delete_resume_unauthorized (current_user_id resume_id : Nat)
    (resumes : List ResumeRec) (r : ResumeRec)
    (hfind : resumes.find? (fun x => x.id == resume_id) = some r)
    (hown : r.user_id ≠ current_user_id) :
    delete_resume current_user_id resume_id resumes =
      (DeleteResult.unauthorized, resumes) := by
  rw [delete_resume, hfind]
  simp only [bne_iff_ne, ne_eq, hown, not_false_eq_true, if_true]

/-- Witness for C9: user 1 attempts to delete user 2's resume; the
table is unchanged and the result is the denial. -/
theorem delete_resume_unauthorized_witness :
    delete_resume 1 10 [other_users_resume] =
      (DeleteResult.unauthorized, [other_users_resume]) :=
  delete_resume_unauthorized 1 10 [other_users_resume] other_users_resume
    (by decide) (by decide)

/-! ## Project link and certification year bypass the sanitizer (C10) -/

/-- C10: in the shared decoding logic of the create and edit paths, a
project record's `link` and a certification record's `year` are stored
exactly as submitted after whitespace stripping, without passing
through `sanitize_input` — unlike the other text fields of those
records — as witnessed on a submission whose link and year carry markup
that `sanitize_input` would alter while the description is stored
sanitized. -/
theorem link_and_year_not_sanitized (form : List (String × String)) (idx : String) :
    (proj_record form idx).link =
      py_strip (form_get form ("projects[" ++ idx ++ "][link]") "") ∧
    (cert_record form idx).year =
      py_strip (form_get form ("certifications[" ++ idx ++ "][year]") "") ∧
    (proj_record form idx).description =
      sanitize_input
        (py_strip (form_get form ("projects[" ++ idx ++ "][description]") "")) ∧
    decode_projects form_markup =
      [{ name := "P", description := "dx", link := "<script>evil()</script>" }] ∧
    sanitize_input "<script>evil()</script>" ≠ "<script>evil()</script>" ∧
    decode_certifications form_markup =
      [{ name := "C", issuer := "I", year := "<script>2020</script>" }] ∧
    sanitize_input "<script>2020</script>" ≠ "<script>2020</script>" ∧
    (edit_resume_post form_markup stored_resume).projects =
      some [{ name := "P", description := "dx",
              link := "<script>evil()</script>" }] :=
  ⟨rfl, rfl, rfl, by decide, by decide, by decide, by decide, by decide⟩

end Resumify
